import Mathlib

/-!
# Logical-plan translator: shallow embedding and verification

Shallow embedding of `src/logical/parser.rs` of the `logq` repository:
the translator from surface select statements to logical plan trees.
Rust `Result<T, ParseError>` becomes `PResult`; a Rust panic
(`unimplemented!()`, out-of-bounds indexing) is the extra `panicked`
outcome, which never carries a value and always propagates.
-/

namespace Logq

/-- A Rust `f64` payload. The translator only copies float literals, never
computes with them, so the payload is kept as an opaque bit pattern. -/
structure Float64 where
  bits : Nat
deriving DecidableEq, Repr

namespace common

/-- Modelled from the spec: canonical literal values, closed set
{Boolean, Float, Int, String} (`crate::common::types::Value`, not under `src/`). -/
inductive Value : Type
  | Boolean (b : Bool)
  | Float (f : Float64)
  | Int (i : Int)
  | String (s : String)
deriving DecidableEq, Repr

/-- Modelled from the spec: the opaque data-source descriptor
(`crate::common::types::DataSource`, not under `src/`); the `Stdin` variant is
evidenced by the tests, the rest stays an opaque string payload. -/
inductive DataSource : Type
  | Stdin
  | Descriptor (s : String)
deriving DecidableEq, Repr

end common

namespace ast

/-- Modelled from the spec: surface literal values
(`crate::syntax::ast::Value`, not under `src/`). -/
inductive Value : Type
  | Boolean (b : Bool)
  | Float (f : Float64)
  | Integral (i : Int)
  | StringLiteral (s : String)
deriving DecidableEq, Repr

/-- Modelled from the spec: surface binary arithmetic operators
(`crate::syntax::ast::ValueOperator`, not under `src/`); `Plus` and its
display form "Plus" are evidenced by the tests. -/
inductive ValueOperator : Type
  | Plus
  | Minus
  | Times
  | Divide
deriving DecidableEq, Repr

/-- Modelled from the spec: the display form of a surface arithmetic
operator (Rust `op.to_string()`), the textual name of the variant. -/
def ValueOperator.display : ValueOperator → String
  | .Plus => "Plus"
  | .Minus => "Minus"
  | .Times => "Times"
  | .Divide => "Divide"

/-- Modelled from the spec: the six surface relational operators
(`crate::syntax::ast::RelationOperator`, not under `src/`). -/
inductive RelationOperator : Type
  | Equal
  | NotEqual
  | GreaterEqual
  | LessEqual
  | LessThan
  | MoreThan
deriving DecidableEq, Repr

mutual
/-- Modelled from the spec: surface boolean-or-value expressions
(`crate::syntax::ast::Expression`, not under `src/`). -/
inductive Expression : Type
  | Condition (c : Condition)
  | And (l r : Expression)
  | Or (l r : Expression)
  | Not (c : Expression)
  | Value (v : ValueExpression)

/-- Modelled from the spec: a surface comparison condition
(`crate::syntax::ast::Condition`, not under `src/`). -/
inductive Condition : Type
  | ComparisonExpression (op : RelationOperator) (l r : ValueExpression)

/-- Modelled from the spec: surface scalar value expressions
(`crate::syntax::ast::ValueExpression`, not under `src/`). The third
component of `FuncCall` is the never-consulted "within group" modifier. -/
inductive ValueExpression : Type
  | Value (v : Value)
  | Column (name : String)
  | Operator (op : ValueOperator) (l r : ValueExpression)
  | FuncCall (name : String) (args : List SelectExpression) (withinGroup : Option Unit)

/-- Modelled from the spec: one surface select-list entry
(`crate::syntax::ast::SelectExpression`, not under `src/`). -/
inductive SelectExpression : Type
  | Star
  | Expression (e : Expression) (name_opt : Option String)
end

/-- Modelled from the spec: a where-clause wrapper
(`crate::syntax::ast::WhereExpression`, not under `src/`). -/
structure WhereExpression where
  expr : Expression

/-- Modelled from the spec: a group-by clause, a list of field names
(`crate::syntax::ast::GroupByExpression`, not under `src/`). -/
structure GroupByExpression where
  exprs : List String

/-- Modelled from the spec: a limit clause carrying a row count
(`crate::syntax::ast::LimitExpression`, not under `src/`). -/
structure LimitExpression where
  row_count : Nat

/-- Modelled from the spec: a full surface select statement
(`crate::syntax::ast::SelectStatement`, not under `src/`): ordered select
items, source table name, optional where, group-by and limit clauses. -/
structure SelectStatement where
  select_exprs : List SelectExpression
  table : String
  where_expr_opt : Option WhereExpression
  group_by_exprs_opt : Option GroupByExpression
  limit_expr_opt : Option LimitExpression

end ast

namespace types

/-- Modelled from the spec: canonical relation kinds, closed set
(`logical::types::Relation`, not under `src/`). -/
inductive Relation : Type
  | Equal
  | NotEqual
  | GreaterEqual
  | LessEqual
  | LessThan
  | MoreThan
deriving DecidableEq, Repr

/-- Modelled from the spec: canonical binary logic connectives
(`logical::types::LogicInfixOp`, not under `src/`). -/
inductive LogicInfixOp : Type
  | And
  | Or
deriving DecidableEq, Repr

/-- Modelled from the spec: canonical unary logic connective
(`logical::types::LogicPrefixOp`, not under `src/`). -/
inductive LogicPrefixOp : Type
  | Not
deriving DecidableEq, Repr

mutual
/-- Modelled from the spec: canonical boolean formulas
(`logical::types::Formula`, not under `src/`). -/
inductive Formula : Type
  | Constant (b : Bool)
  | Predicate (rel : Relation) (l r : Expression)
  | PrefixOperator (op : LogicPrefixOp) (f : Formula)
  | InfixOperator (op : LogicInfixOp) (l r : Formula)

/-- Modelled from the spec: canonical scalar expressions
(`logical::types::Expression`, not under `src/`). -/
inductive Expression : Type
  | Constant (v : common.Value)
  | Variable (name : String)
  | Function (name : String) (args : List Named)
  | Logic (f : Formula)

/-- Modelled from the spec: one projected output column
(`logical::types::Named`, not under `src/`). -/
inductive Named : Type
  | Star
  | Expression (e : Expression) (name_opt : Option String)
end

/-- Modelled from the spec: the seven aggregate kinds, each wrapping one
`Named` operand (`logical::types::Aggregate`, not under `src/`). -/
inductive Aggregate : Type
  | Avg (n : Named)
  | Count (n : Named)
  | First (n : Named)
  | Last (n : Named)
  | Max (n : Named)
  | Min (n : Named)
  | Sum (n : Named)

/-- Modelled from the spec: an aggregate together with an optional output
alias (`logical::types::NamedAggregate`, not under `src/`);
`NamedAggregate::new` is the structure constructor. -/
structure NamedAggregate where
  aggregate : Aggregate
  name_opt : Option String

/-- Modelled from the spec: the logical plan tree
(`logical::types::Node`, not under `src/`). -/
inductive Node : Type
  | DataSource (ds : common.DataSource)
  | Map (named_list : List Named) (child : Node)
  | Filter (f : Formula) (child : Node)
  | GroupBy (fields : List String) (aggs : List NamedAggregate) (child : Node)
  | Limit (row_count : Nat) (child : Node)

end types

/-- Embedding of `ParseError` from `src/logical/parser.rs`. -/
inductive ParseError : Type
  | TypeMismatch
  | UnsupportedLogicOperator
  | NotAggregateFunction
  | SelectExprMustBeNamed
deriving DecidableEq, Repr

/-- Outcome of a translator call: a value (`Ok`), a `ParseError` (`Err`), or
`panicked`, the embedding of a Rust panic (`unimplemented!()` or
out-of-bounds indexing), which never returns a value and always propagates. -/
inductive PResult (α : Type) : Type
  | ok (a : α)
  | err (e : ParseError)
  | panicked

/-- Embedding of `parse_boolean_value` from `src/logical/parser.rs`. -/
def parse_boolean_value : ast.ValueExpression → PResult types.Formula
  | .Value val =>
    match val with
    | .Boolean b => .ok (types.Formula.Constant b)
    | _ => .err .TypeMismatch
  | _ => .err .TypeMismatch

/-- Embedding of `parse_value` from `src/logical/parser.rs`. -/
def parse_value : ast.Value → PResult types.Expression
  | .Boolean b => .ok (.Constant (common.Value.Boolean b))
  | .Float f => .ok (.Constant (common.Value.Float f))
  | .Integral i => .ok (.Constant (common.Value.Int i))
  | .StringLiteral s => .ok (.Constant (common.Value.String s))

/-- Embedding of `parse_relation` from `src/logical/parser.rs`. -/
def parse_relation : ast.RelationOperator → PResult types.Relation
  | .Equal => .ok .Equal
  | .NotEqual => .ok .NotEqual
  | .GreaterEqual => .ok .GreaterEqual
  | .LessEqual => .ok .LessEqual
  | .LessThan => .ok .LessThan
  | .MoreThan => .ok .MoreThan

/-- Embedding of `from_str` from `src/logical/parser.rs`: the aggregate-keyword lookup. -/
def from_str (value : String) (named : types.Named) : PResult types.Aggregate :=
  match value with
  | "avg" => .ok (.Avg named)
  | "count" => .ok (.Count named)
  | "first" => .ok (.First named)
  | "last" => .ok (.Last named)
  | "max" => .ok (.Max named)
  | "min" => .ok (.Min named)
  | "sum" => .ok (.Sum named)
  | _ => .err .NotAggregateFunction

mutual

/-- Embedding of `parse_prefix_operator` from `src/logical/parser.rs`. -/
def parse_prefix_operator (op : types.LogicPrefixOp) (child : ast.Expression) :
    PResult types.Formula :=
  match parse_logic child with
  | .ok child_parsed => .ok (types.Formula.PrefixOperator op child_parsed)
  | .err e => .err e
  | .panicked => .panicked
termination_by 8 * sizeOf child + 1

/-- Embedding of `parse_infix_operator` from `src/logical/parser.rs`. -/
def parse_infix_operator (op : types.LogicInfixOp) (left right : ast.Expression) :
    PResult types.Formula :=
  match parse_logic left with
  | .ok left_parsed =>
    match parse_logic right with
    | .ok right_parsed => .ok (types.Formula.InfixOperator op left_parsed right_parsed)
    | .err e => .err e
    | .panicked => .panicked
  | .err e => .err e
  | .panicked => .panicked
termination_by 8 * (sizeOf left + sizeOf right) + 1

/-- Embedding of `parse_logic` from `src/logical/parser.rs`. -/
def parse_logic : ast.Expression → PResult types.Formula
  | .Condition c => parse_condition c
  | .And l r => parse_infix_operator .And l r
  | .Or l r => parse_infix_operator .Or l r
  | .Not c => parse_prefix_operator .Not c
  | .Value value_expr => parse_boolean_value value_expr
termination_by e => 8 * sizeOf e

/-- Embedding of `parse_logic_expression` from `src/logical/parser.rs`. -/
def parse_logic_expression (expr : ast.Expression) : PResult types.Expression :=
  match parse_logic expr with
  | .ok formula => .ok (types.Expression.Logic formula)
  | .err e => .err e
  | .panicked => .panicked
termination_by 8 * sizeOf expr + 1

/-- Embedding of `parse_condition` from `src/logical/parser.rs`. -/
def parse_condition : ast.Condition → PResult types.Formula
  | .ComparisonExpression op left_expr right_expr =>
    match parse_value_expression left_expr with
    | .ok left =>
      match parse_value_expression right_expr with
      | .ok right =>
        match parse_relation op with
        | .ok rel_op => .ok (types.Formula.Predicate rel_op left right)
        | .err e => .err e
        | .panicked => .panicked
      | .err e => .err e
      | .panicked => .panicked
    | .err e => .err e
    | .panicked => .panicked
termination_by c => 8 * sizeOf c

/-- Embedding of `parse_arithemetic` from `src/logical/parser.rs` (source spelling kept);
the catch-all arm is the `unimplemented!()` panic. -/
def parse_arithemetic : ast.ValueExpression → PResult types.Expression
  | .Operator op left_expr right_expr =>
    match parse_value_expression left_expr with
    | .ok left =>
      match parse_value_expression right_expr with
      | .ok right =>
        .ok (types.Expression.Function op.display
          [types.Named.Expression left none, types.Named.Expression right none])
      | .err e => .err e
      | .panicked => .panicked
    | .err e => .err e
    | .panicked => .panicked
  | _ => .panicked
termination_by ve => 8 * sizeOf ve

/-- Embedding of `parse_value_expression` from `src/logical/parser.rs`. The `Operator` arm
delegates the whole expression to `parse_arithemetic`, the `FuncCall` arm
translates each argument through `parse_expression` in order. -/
def parse_value_expression : ast.ValueExpression → PResult types.Expression
  | .Value v => parse_value v
  | .Column column_name => .ok (types.Expression.Variable column_name)
  | .Operator op l r => parse_arithemetic (.Operator op l r)
  | .FuncCall func_name select_exprs _within_group_opt =>
    match parse_expression_list select_exprs with
    | .ok args => .ok (types.Expression.Function func_name args)
    | .err e => .err e
    | .panicked => .panicked
termination_by ve => 8 * sizeOf ve + 1

/-- The argument loop inside `parse_value_expression` of
`src/logical/parser.rs`: each function argument is translated by
`parse_expression`, stopping at the first error. -/
def parse_expression_list : List ast.SelectExpression → PResult (List types.Named)
  | [] => .ok []
  | select_expr :: rest =>
    match parse_expression select_expr with
    | .ok arg =>
      match parse_expression_list rest with
      | .ok args => .ok (arg :: args)
      | .err e => .err e
      | .panicked => .panicked
    | .err e => .err e
    | .panicked => .panicked
termination_by l => 8 * sizeOf l

/-- Embedding of `parse_expression` from `src/logical/parser.rs`: the select-item
translator. The `Condition` arm keeps the user alias; the `And`/`Or`/`Not`
arms build `Named::Expression(_, None)`; the `Value` arm ignores the user
alias, promoting the own name of a bare variable and leaving `None` otherwise. -/
def parse_expression : ast.SelectExpression → PResult types.Named
  | .Star => .ok types.Named.Star
  | .Expression (.Condition c) name_opt =>
    match parse_condition c with
    | .ok formula => .ok (types.Named.Expression (types.Expression.Logic formula) name_opt)
    | .err e => .err e
    | .panicked => .panicked
  | .Expression (.And l r) _name_opt =>
    match parse_logic_expression (.And l r) with
    | .ok e => .ok (types.Named.Expression e none)
    | .err e => .err e
    | .panicked => .panicked
  | .Expression (.Or l r) _name_opt =>
    match parse_logic_expression (.Or l r) with
    | .ok e => .ok (types.Named.Expression e none)
    | .err e => .err e
    | .panicked => .panicked
  | .Expression (.Not c) _name_opt =>
    match parse_logic_expression (.Not c) with
    | .ok e => .ok (types.Named.Expression e none)
    | .err e => .err e
    | .panicked => .panicked
  | .Expression (.Value value_expr) _name_opt =>
    match parse_value_expression value_expr with
    | .ok e =>
      match e with
      | types.Expression.Variable name =>
        .ok (types.Named.Expression (types.Expression.Variable name) (some name))
      | _ => .ok (types.Named.Expression e none)
    | .err e => .err e
    | .panicked => .panicked
termination_by se => 8 * sizeOf se

end

/-- Embedding of `parse_aggregate` from `src/logical/parser.rs`. The Rust code indexes
`args[0]` without a bounds check, so an empty argument list is the
out-of-bounds panic, reached before `from_str` ever sees the name. -/
def parse_aggregate : ast.SelectExpression → PResult types.NamedAggregate
  | .Expression (.Value (.FuncCall func_name args _within_group_opt)) name_opt =>
    match args with
    | [] => .panicked
    | arg0 :: _ =>
      match parse_expression arg0 with
      | .ok named =>
        match from_str func_name named with
        | .ok aggregate => .ok { aggregate := aggregate, name_opt := name_opt }
        | .err e => .err e
        | .panicked => .panicked
      | .err e => .err e
      | .panicked => .panicked
  | .Expression (.Value _) _ => .err .TypeMismatch
  | .Expression _ _ => .err .TypeMismatch
  | .Star => .err .TypeMismatch

/-- The select-list loop of `parse_query` in `src/logical/parser.rs`:
each item is first offered to `parse_aggregate`; on success the
`NamedAggregate` joins the aggregate list and, for `Avg`/`Count` only, its
inner `Named` joins the projection list (`unimplemented!()`, i.e. a panic,
for the other five kinds); on a `ParseError` the item falls back to
`parse_expression`. Returns (projection list, aggregate list). -/
def process_select_exprs :
    List ast.SelectExpression → PResult (List types.Named × List types.NamedAggregate)
  | [] => .ok ([], [])
  | select_expr :: rest =>
    match parse_aggregate select_expr with
    | .panicked => .panicked
    | .ok named_aggregate =>
      match named_aggregate.aggregate with
      | .Avg named =>
        match process_select_exprs rest with
        | .ok (named_list, aggs) => .ok (named :: named_list, named_aggregate :: aggs)
        | .err e => .err e
        | .panicked => .panicked
      | .Count named =>
        match process_select_exprs rest with
        | .ok (named_list, aggs) => .ok (named :: named_list, named_aggregate :: aggs)
        | .err e => .err e
        | .panicked => .panicked
      | _ => .panicked
    | .err _ =>
      match parse_expression select_expr with
      | .ok named =>
        match process_select_exprs rest with
        | .ok (named_list, aggs) => .ok (named :: named_list, aggs)
        | .err e => .err e
        | .panicked => .panicked
      | .err e => .err e
      | .panicked => .panicked

/-- Embedding of `parse_query` from `src/logical/parser.rs`: the plan assembler. Starting
from `DataSource`, it wraps `Map` (iff the select list is non-empty),
`Filter` (iff a where-clause is present), `GroupBy` (iff a group-by clause
is present, carrying the full aggregate list), then `Limit` (iff a limit
clause is present). -/
def parse_query (query : ast.SelectStatement) (data_source : common.DataSource) :
    PResult types.Node :=
  let root0 := types.Node.DataSource data_source
  match
    (if query.select_exprs.isEmpty then
      PResult.ok (root0, ([] : List types.NamedAggregate))
    else
      match process_select_exprs query.select_exprs with
      | .ok (named_list, aggs) => .ok (types.Node.Map named_list root0, aggs)
      | .err e => .err e
      | .panicked => .panicked) with
  | .err e => .err e
  | .panicked => .panicked
  | .ok (root1, named_aggregates) =>
    match
      (match query.where_expr_opt with
      | none => PResult.ok root1
      | some where_expr =>
        match parse_logic where_expr.expr with
        | .ok filter_formula => .ok (types.Node.Filter filter_formula root1)
        | .err e => .err e
        | .panicked => .panicked) with
    | .err e => .err e
    | .panicked => .panicked
    | .ok root2 =>
      let root3 :=
        match query.group_by_exprs_opt with
        | none => root2
        | some group_by => types.Node.GroupBy group_by.exprs named_aggregates root2
      let root4 :=
        match query.limit_expr_opt with
        | none => root3
        | some limit_expr => types.Node.Limit limit_expr.row_count root3
      .ok root4

/-- A result avoids the two declared-but-unreachable error kinds of
`src/logical/parser.rs`. -/
def Benign {α : Type} (r : PResult α) : Prop :=
  r ≠ PResult.err ParseError.UnsupportedLogicOperator ∧
  r ≠ PResult.err ParseError.SelectExprMustBeNamed

/-- The `Avg`/`Count` test of the select loop in `parse_query`: exactly the
aggregate kinds whose operand is pushed onto the projection list; the
remaining five kinds hit the `unimplemented!()` arm. -/
def aggregate_wired : types.Aggregate → Bool
  | .Avg _ => true
  | .Count _ => true
  | _ => false

/-- A surface expression built purely from And/Or/Not over boolean
literal values (the fragment of the structural-isomorphism property). -/
def isPureBoolTree : ast.Expression → Bool
  | .And l r => isPureBoolTree l && isPureBoolTree r
  | .Or l r => isPureBoolTree l && isPureBoolTree r
  | .Not c => isPureBoolTree c
  | .Value (.Value (.Boolean _)) => true
  | _ => false

/-- Modelled from the spec: the expected mirror image of a pure And/Or/Not
tree over boolean literals — surface And maps to `InfixOperator And` on the
recursively mirrored sides, Or to `InfixOperator Or`, Not to
`PrefixOperator Not`, and a boolean literal to `Formula::Constant` with the
same truth value. Stated from the words of the spec, to be compared with the
output of `parse_logic`. -/
def specBoolMirror : ast.Expression → Option types.Formula
  | .And l r =>
    match specBoolMirror l, specBoolMirror r with
    | some fl, some fr => some (types.Formula.InfixOperator .And fl fr)
    | _, _ => none
  | .Or l r =>
    match specBoolMirror l, specBoolMirror r with
    | some fl, some fr => some (types.Formula.InfixOperator .Or fl fr)
    | _, _ => none
  | .Not c =>
    match specBoolMirror c with
    | some f => some (types.Formula.PrefixOperator .Not f)
    | none => none
  | .Value (.Value (.Boolean b)) => some (types.Formula.Constant b)
  | _ => none

/-- A surface expression that is an And/Or/Not connective at the root. -/
def isLogicConnective : ast.Expression → Bool
  | .And _ _ => true
  | .Or _ _ => true
  | .Not _ => true
  | _ => false

/-- Sample select statement: `select a, b where a = 1` over stdin
(the shape of the repository test `test_parse_query_with_simple_select_where`). -/
def sampleQuery : ast.SelectStatement :=
  { select_exprs := [.Expression (.Value (.Column "a")) none,
                     .Expression (.Value (.Column "b")) none],
    table := "elb",
    where_expr_opt := some ⟨.Condition (.ComparisonExpression .Equal
      (.Column "a") (.Value (.Integral 1)))⟩,
    group_by_exprs_opt := none,
    limit_expr_opt := none }

/-- The plan `parse_query` builds for `sampleQuery`. -/
def samplePlan : types.Node :=
  types.Node.Filter
    (types.Formula.Predicate .Equal (.Variable "a") (.Constant (common.Value.Int 1)))
    (types.Node.Map
      [types.Named.Expression (.Variable "a") (some "a"),
       types.Named.Expression (.Variable "b") (some "b")]
      (types.Node.DataSource common.DataSource.Stdin))

/-- Sample select statement whose only item is the aggregate call
`first(a)`, one of the five unwired aggregate kinds. -/
def sampleFirstQuery : ast.SelectStatement :=
  { select_exprs := [.Expression (.Value (.FuncCall "first"
      [.Expression (.Value (.Column "a")) none] none)) none],
    table := "elb",
    where_expr_opt := none,
    group_by_exprs_opt := none,
    limit_expr_opt := none }

/-- The select item `first(a)` of `sampleFirstQuery`. -/
def sampleFirstItem : ast.SelectExpression :=
  .Expression (.Value (.FuncCall "first"
    [.Expression (.Value (.Column "a")) none] none)) none

/-- Sample pure boolean surface tree `(true && false) || !false`. -/
def sampleBoolTree : ast.Expression :=
  .Or (.And (.Value (.Value (.Boolean true))) (.Value (.Value (.Boolean false))))
      (.Not (.Value (.Value (.Boolean false))))

/-- Sample nested arithmetic `(1 + 2) + 3` (the shape of the repository
test `test_parse_value_expression`). -/
def sampleArithLeft : ast.ValueExpression :=
  .Operator .Plus (.Value (.Integral 1)) (.Value (.Integral 2))

/-- Canonical translation of `sampleArithLeft`. -/
def sampleArithLeftExpr : types.Expression :=
  types.Expression.Function "Plus"
    [types.Named.Expression (.Constant (common.Value.Int 1)) none,
     types.Named.Expression (.Constant (common.Value.Int 2)) none]

/-- Sample surface condition `a = 1`. -/
def sampleCondition : ast.Condition :=
  .ComparisonExpression .Equal (.Column "a") (.Value (.Integral 1))

/-- Canonical translation of `sampleCondition`. -/
def sampleConditionFormula : types.Formula :=
  types.Formula.Predicate .Equal (.Variable "a") (.Constant (common.Value.Int 1))

/-- Modelled from the spec: the expected layering of an assembled plan —
`DataSource` at the leaf, then `Map` iff the select list is non-empty,
`Filter` iff a where-clause was supplied, `GroupBy` iff a group-by clause
was supplied, `Limit` iff a limit clause was supplied, in that fixed
order. Stated from the words of the spec, to be compared with the output of
`parse_query`. -/
def specLayerPlan (query : ast.SelectStatement) (ds : common.DataSource)
    (named_list : List types.Named) (filter_formula : types.Formula)
    (aggs : List types.NamedAggregate) : types.Node :=
  let p1 := if query.select_exprs.isEmpty then types.Node.DataSource ds
            else types.Node.Map named_list (types.Node.DataSource ds)
  let p2 := match query.where_expr_opt with
            | some _ => types.Node.Filter filter_formula p1
            | none => p1
  let p3 := match query.group_by_exprs_opt with
            | some group_by => types.Node.GroupBy group_by.exprs aggs p2
            | none => p2
  match query.limit_expr_opt with
  | some limit_expr => types.Node.Limit limit_expr.row_count p3
  | none => p3

/-- C2 counterexample: the select item `1 AS x` — a plain scalar literal
with a user-supplied alias — does not keep the alias `x`; the translated
`Named` carries alias `None`, so the default-alias description "a supplied
alias is kept" is false on the code. -/
theorem scalar_alias_kept_cex :
    parse_expression (.Expression (.Value (.Value (.Integral 1))) (some "x")) ≠
      PResult.ok (types.Named.Expression
        (.Constant (common.Value.Int 1)) (some "x")) ∧
    parse_expression (.Expression (.Value (.Value (.Integral 1))) (some "x")) =
      PResult.ok (types.Named.Expression (.Constant (common.Value.Int 1)) none) := by
  constructor
  · intro h
    simp [parse_expression, parse_value_expression, parse_value] at h
  · simp [parse_expression, parse_value_expression, parse_value]

/-- C2 (amended): a select item whose expression is a plain scalar value
ignores any user-supplied alias: when the translated expression is exactly
a bare `Variable` the own name of the column becomes the alias (even overriding
a user alias), and every other scalar expression is translated with alias
`None`. -/
theorem scalar_select_item_alias (value_expr : ast.ValueExpression)
    (name_opt : Option String) :
    (∀ name,
      parse_value_expression value_expr = PResult.ok (types.Expression.Variable name) →
      parse_expression (.Expression (.Value value_expr) name_opt) =
        PResult.ok (types.Named.Expression (types.Expression.Variable name) (some name))) ∧
    (∀ e, parse_value_expression value_expr = PResult.ok e →
      (∀ name, e ≠ types.Expression.Variable name) →
      parse_expression (.Expression (.Value value_expr) name_opt) =
        PResult.ok (types.Named.Expression e none)) := by
  constructor
  · intro name h
    simp [parse_expression, h]
  · intro e h hvar
    cases e with
    | Constant v => simp [parse_expression, h]
    | Variable name => exact absurd rfl (hvar name)
    | Function name args => simp [parse_expression, h]
    | Logic f => simp [parse_expression, h]

/-- C2 witness: translating the aliased column item `a AS x` promotes the
own name `a` of the column, not the user alias. -/
theorem scalar_select_item_alias_witness :
    parse_value_expression (.Column "a") =
      PResult.ok (types.Expression.Variable "a") ∧
    parse_expression (.Expression (.Value (.Column "a")) (some "x")) =
      PResult.ok (types.Named.Expression (types.Expression.Variable "a") (some "a")) :=
  ⟨by simp [parse_value_expression],
   (scalar_select_item_alias (.Column "a") (some "x")).1 "a"
     (by simp [parse_value_expression])⟩

/-- C3 counterexample: a boolean-shaped select item that is a bare
condition, `(a = 1) AS x`, keeps the user alias `x` instead of discarding
it, so "any user-supplied alias on a boolean-valued select item is
discarded" is false on the code. -/
theorem boolean_alias_discarded_cex :
    parse_expression (.Expression (.Condition sampleCondition) (some "x")) ≠
      PResult.ok (types.Named.Expression
        (types.Expression.Logic sampleConditionFormula) none) ∧
    parse_expression (.Expression (.Condition sampleCondition) (some "x")) =
      PResult.ok (types.Named.Expression
        (types.Expression.Logic sampleConditionFormula) (some "x")) := by
  constructor
  · intro h
    simp [parse_expression, sampleCondition, parse_condition, parse_value_expression,
      parse_value, parse_relation, sampleConditionFormula] at h
  · simp [parse_expression, sampleCondition, parse_condition, parse_value_expression,
      parse_value, parse_relation, sampleConditionFormula]

/-- C3 (amended): a select item whose expression is an And/Or/Not tree is
translated as `Named::Expression(Logic(formula), None)`, discarding any
user-supplied alias; a select item whose expression is a bare condition
keeps the user-supplied alias instead. -/
theorem boolean_select_item_alias (expr : ast.Expression) (name_opt : Option String) :
    (isLogicConnective expr = true →
      ∀ f, parse_logic expr = PResult.ok f →
      parse_expression (.Expression expr name_opt) =
        PResult.ok (types.Named.Expression (types.Expression.Logic f) none)) ∧
    (∀ c, expr = ast.Expression.Condition c →
      ∀ f, parse_condition c = PResult.ok f →
      parse_expression (.Expression expr name_opt) =
        PResult.ok (types.Named.Expression (types.Expression.Logic f) name_opt)) := by
  constructor
  · intro hconn f hf
    cases expr with
    | And l r => simp [parse_expression, parse_logic_expression, hf]
    | Or l r => simp [parse_expression, parse_logic_expression, hf]
    | Not c => simp [parse_expression, parse_logic_expression, hf]
    | Condition c => simp [isLogicConnective] at hconn
    | Value ve => simp [isLogicConnective] at hconn
  · intro c hc f hf
    subst hc
    simp [parse_expression, hf]

/-- C3 witness: the aliased conjunction `(true && false) AS x` loses its
alias, while the aliased condition `(a = 1) AS x` keeps it. -/
theorem boolean_select_item_alias_witness :
    isLogicConnective (.And (.Value (.Value (.Boolean true)))
      (.Value (.Value (.Boolean false)))) = true ∧
    parse_logic (.And (.Value (.Value (.Boolean true)))
      (.Value (.Value (.Boolean false)))) =
      PResult.ok (types.Formula.InfixOperator .And (.Constant true) (.Constant false)) ∧
    parse_expression (.Expression (.And (.Value (.Value (.Boolean true)))
      (.Value (.Value (.Boolean false)))) (some "x")) =
      PResult.ok (types.Named.Expression (types.Expression.Logic
        (types.Formula.InfixOperator .And (.Constant true) (.Constant false))) none) :=
  ⟨rfl,
   by simp [parse_logic, parse_infix_operator, parse_boolean_value],
   (boolean_select_item_alias (.And (.Value (.Value (.Boolean true)))
      (.Value (.Value (.Boolean false)))) (some "x")).1 rfl _
     (by simp [parse_logic, parse_infix_operator, parse_boolean_value])⟩

/-- C6: a binary arithmetic surface expression translates to a `Function`
named after the display form of the operator, with exactly two unnamed
arguments, the translated left operand first and the translated right
operand second; since the operands translate through the same scalar
translator, input nesting is preserved exactly. -/
theorem arithmetic_function_shape (op : ast.ValueOperator)
    (l r : ast.ValueExpression) (el er : types.Expression)
    (hl : parse_value_expression l = PResult.ok el)
    (hr : parse_value_expression r = PResult.ok er) :
    parse_value_expression (.Operator op l r) =
      PResult.ok (types.Expression.Function op.display
        [types.Named.Expression el none, types.Named.Expression er none]) := by
  simp [parse_value_expression, parse_arithemetic, hl, hr]

/-- C6 witness: the nested arithmetic `(1 + 2) + 3` translates to
`Plus(Plus(1, 2), 3)` with unnamed, left-to-right arguments. -/
theorem arithmetic_function_shape_witness :
    parse_value_expression sampleArithLeft = PResult.ok sampleArithLeftExpr ∧
    parse_value_expression (.Value (.Integral 3)) =
      PResult.ok (.Constant (common.Value.Int 3)) ∧
    parse_value_expression (.Operator .Plus sampleArithLeft (.Value (.Integral 3))) =
      PResult.ok (types.Expression.Function "Plus"
        [types.Named.Expression sampleArithLeftExpr none,
         types.Named.Expression (.Constant (common.Value.Int 3)) none]) :=
  ⟨by simp [sampleArithLeft, sampleArithLeftExpr, parse_value_expression,
      parse_arithemetic, parse_value, ast.ValueOperator.display],
   by simp [parse_value_expression, parse_value],
   arithmetic_function_shape .Plus sampleArithLeft (.Value (.Integral 3))
     sampleArithLeftExpr (.Constant (common.Value.Int 3))
     (by simp [sampleArithLeft, sampleArithLeftExpr, parse_value_expression,
       parse_arithemetic, parse_value, ast.ValueOperator.display])
     (by simp [parse_value_expression, parse_value])⟩

/-- C7: the aggregate-keyword lookup succeeds exactly on the seven
lowercase keywords, returning the corresponding aggregate kind, and yields
`NotAggregateFunction` on every other name (case-sensitively, so e.g.
"AVG" fails). -/
theorem aggregate_keyword_lookup (s : String) (n : types.Named) :
    (s = "avg" → from_str s n = PResult.ok (.Avg n)) ∧
    (s = "count" → from_str s n = PResult.ok (.Count n)) ∧
    (s = "first" → from_str s n = PResult.ok (.First n)) ∧
    (s = "last" → from_str s n = PResult.ok (.Last n)) ∧
    (s = "max" → from_str s n = PResult.ok (.Max n)) ∧
    (s = "min" → from_str s n = PResult.ok (.Min n)) ∧
    (s = "sum" → from_str s n = PResult.ok (.Sum n)) ∧
    (s ∉ (["avg", "count", "first", "last", "max", "min", "sum"] : List String) →
      from_str s n = PResult.err .NotAggregateFunction) := by
  refine ⟨?_, ?_, ?_, ?_, ?_, ?_, ?_, ?_⟩ <;> intro h
  · subst h; rfl
  · subst h; rfl
  · subst h; rfl
  · subst h; rfl
  · subst h; rfl
  · subst h; rfl
  · subst h; rfl
  · unfold from_str
    split <;> simp_all

/-- C7 witness: "avg" maps to `Avg` while the case-mismatched "AVG" fails
with `NotAggregateFunction`. -/
theorem aggregate_keyword_lookup_witness :
    from_str "avg" types.Named.Star = PResult.ok (.Avg types.Named.Star) ∧
    from_str "AVG" types.Named.Star = PResult.err .NotAggregateFunction :=
  ⟨(aggregate_keyword_lookup "avg" types.Named.Star).1 rfl,
   (aggregate_keyword_lookup "AVG" types.Named.Star).2.2.2.2.2.2.2 (by decide)⟩

/-- C8: a surface value expression sitting directly in boolean position
that is not a boolean literal is rejected by the formula translator with
`TypeMismatch`. -/
theorem boolean_position_type_mismatch (value_expr : ast.ValueExpression)
    (h : ∀ b, value_expr ≠ ast.ValueExpression.Value (ast.Value.Boolean b)) :
    parse_logic (ast.Expression.Value value_expr) =
      PResult.err ParseError.TypeMismatch := by
  rw [parse_logic]
  cases value_expr with
  | Value v =>
    cases v with
    | Boolean b => exact absurd rfl (h b)
    | Float f => rfl
    | Integral i => rfl
    | StringLiteral s => rfl
  | Column name => rfl
  | Operator op l r => rfl
  | FuncCall name args wg => rfl

/-- C8 witness: the bare column reference `a` used as a condition is
rejected with `TypeMismatch`. -/
theorem boolean_position_type_mismatch_witness :
    parse_logic (ast.Expression.Value (.Column "a")) =
      PResult.err ParseError.TypeMismatch :=
  boolean_position_type_mismatch (.Column "a")
    (fun _ h => ast.ValueExpression.noConfusion h)

/-- C10: the aggregate classifier indexes the first argument of a function
call without checking one exists: on an empty argument list it hits the
out-of-bounds panic — for every function name, even a valid aggregate
keyword, and before the name is ever tested — so it neither succeeds nor
returns a `ParseError`. -/
theorem aggregate_empty_args_panics (func_name : String)
    (name_opt : Option String) (wg : Option Unit) :
    parse_aggregate (.Expression (.Value (.FuncCall func_name [] wg)) name_opt) =
      PResult.panicked := by
  rfl

/-- Helper for the structural-isomorphism claim: on a pure And/Or/Not tree
over boolean literals, `parse_logic` succeeds and returns exactly the
mirror image of the input tree as the spec states it. -/
theorem pureBoolTree_mirror : ∀ (e : ast.Expression), isPureBoolTree e = true →
    ∃ f, specBoolMirror e = some f ∧ parse_logic e = PResult.ok f
  | .And l r, h => by
    rw [isPureBoolTree, Bool.and_eq_true] at h
    obtain ⟨fl, hfl, hfl2⟩ := pureBoolTree_mirror l h.1
    obtain ⟨fr, hfr, hfr2⟩ := pureBoolTree_mirror r h.2
    exact ⟨types.Formula.InfixOperator .And fl fr,
      by simp [specBoolMirror, hfl, hfr],
      by simp [parse_logic, parse_infix_operator, hfl2, hfr2]⟩
  | .Or l r, h => by
    rw [isPureBoolTree, Bool.and_eq_true] at h
    obtain ⟨fl, hfl, hfl2⟩ := pureBoolTree_mirror l h.1
    obtain ⟨fr, hfr, hfr2⟩ := pureBoolTree_mirror r h.2
    exact ⟨types.Formula.InfixOperator .Or fl fr,
      by simp [specBoolMirror, hfl, hfr],
      by simp [parse_logic, parse_infix_operator, hfl2, hfr2]⟩
  | .Not c, h => by
    rw [isPureBoolTree] at h
    obtain ⟨f, hf, hf2⟩ := pureBoolTree_mirror c h
    exact ⟨types.Formula.PrefixOperator .Not f,
      by simp [specBoolMirror, hf],
      by simp [parse_logic, parse_prefix_operator, hf2]⟩
  | .Value (.Value (.Boolean b)), _ =>
    ⟨types.Formula.Constant b, rfl, by rw [parse_logic]; rfl⟩
  | .Condition c, h => by simp [isPureBoolTree] at h
  | .Value (.Value (.Float f)), h => by simp [isPureBoolTree] at h
  | .Value (.Value (.Integral i)), h => by simp [isPureBoolTree] at h
  | .Value (.Value (.StringLiteral s)), h => by simp [isPureBoolTree] at h
  | .Value (.Column name), h => by simp [isPureBoolTree] at h
  | .Value (.Operator op l r), h => by simp [isPureBoolTree] at h
  | .Value (.FuncCall name args wg), h => by simp [isPureBoolTree] at h

/-- C5: for every surface boolean expression built purely from And, Or and
Not over boolean literals, `parse_logic` succeeds and its output is the
exact structural mirror of the input: And becomes `InfixOperator And`, Or
becomes `InfixOperator Or`, Not becomes `PrefixOperator Not`, and each
boolean literal becomes `Formula::Constant` with the same truth value —
the tree shape is preserved exactly. -/
theorem logic_translator_structural_iso (e : ast.Expression)
    (h : isPureBoolTree e = true) :
    ∃ f, specBoolMirror e = some f ∧ parse_logic e = PResult.ok f :=
  pureBoolTree_mirror e h

/-- C5 witness: the tree `(true && false) || !false` is pure and mirrors
structurally. -/
theorem logic_translator_structural_iso_witness :
    isPureBoolTree sampleBoolTree = true ∧
    (∃ f, specBoolMirror sampleBoolTree = some f ∧
      parse_logic sampleBoolTree = PResult.ok f) :=
  ⟨by rfl, logic_translator_structural_iso sampleBoolTree (by rfl)⟩

/-- Helper for the unwired-aggregate claim: the select loop never returns
a result when some item classifies as an aggregate whose kind is not
`Avg`/`Count`. -/
theorem process_select_exprs_unwired (l : List ast.SelectExpression)
    (h : ∃ se ∈ l, ∃ na, parse_aggregate se = PResult.ok na ∧
      aggregate_wired na.aggregate = false) :
    ∀ res, process_select_exprs l ≠ PResult.ok res := by
  induction l with
  | nil =>
    obtain ⟨se, hmem, _⟩ := h
    simp at hmem
  | cons head rest ih =>
    intro res hok
    obtain ⟨se, hmem, na, hagg, hwired⟩ := h
    rcases List.mem_cons.mp hmem with hse | hse
    · subst hse
      cases hag : na.aggregate with
      | Avg n => rw [hag] at hwired; simp [aggregate_wired] at hwired
      | Count n => rw [hag] at hwired; simp [aggregate_wired] at hwired
      | First n => simp [process_select_exprs, hagg, hag] at hok
      | Last n => simp [process_select_exprs, hagg, hag] at hok
      | Max n => simp [process_select_exprs, hagg, hag] at hok
      | Min n => simp [process_select_exprs, hagg, hag] at hok
      | Sum n => simp [process_select_exprs, hagg, hag] at hok
    · have hrest : ∃ se ∈ rest, ∃ na, parse_aggregate se = PResult.ok na ∧
        aggregate_wired na.aggregate = false := ⟨se, hse, na, hagg, hwired⟩
      rw [process_select_exprs] at hok
      cases hh : parse_aggregate head with
      | panicked => simp [hh] at hok
      | ok na2 =>
        simp only [hh] at hok
        cases hag : na2.aggregate with
        | Avg n =>
          simp only [hag] at hok
          cases hp : process_select_exprs rest with
          | ok p => exact ih hrest p hp
          | err e => simp [hp] at hok
          | panicked => simp [hp] at hok
        | Count n =>
          simp only [hag] at hok
          cases hp : process_select_exprs rest with
          | ok p => exact ih hrest p hp
          | err e => simp [hp] at hok
          | panicked => simp [hp] at hok
        | First n => simp [hag] at hok
        | Last n => simp [hag] at hok
        | Max n => simp [hag] at hok
        | Min n => simp [hag] at hok
        | Sum n => simp [hag] at hok
      | err e =>
        simp only [hh] at hok
        cases hpe : parse_expression head with
        | ok n =>
          simp only [hpe] at hok
          cases hp : process_select_exprs rest with
          | ok p => exact ih hrest p hp
          | err e2 => simp [hp] at hok
          | panicked => simp [hp] at hok
        | err e2 => simp [hpe] at hok
        | panicked => simp [hpe] at hok

/-- C4: whenever some select item classifies as an aggregate of kind
`First`, `Last`, `Max`, `Min` or `Sum`, the assembler fails before
completing the `Map` projection list (the Rust code hits
`unimplemented!()`): `parse_query` never returns a plan. -/
theorem unwired_aggregate_never_planned (query : ast.SelectStatement)
    (ds : common.DataSource)
    (h : ∃ se ∈ query.select_exprs, ∃ na, parse_aggregate se = PResult.ok na ∧
      aggregate_wired na.aggregate = false) :
    ∀ plan, parse_query query ds ≠ PResult.ok plan := by
  intro plan hok
  have hne : query.select_exprs.isEmpty = false := by
    obtain ⟨se, hmem, _⟩ := h
    cases hl : query.select_exprs with
    | nil => rw [hl] at hmem; simp at hmem
    | cons a as => simp [hl]
  rw [parse_query] at hok
  cases hp : process_select_exprs query.select_exprs with
  | ok res => exact process_select_exprs_unwired _ h res hp
  | err e => rw [hne, hp] at hok; simp at hok
  | panicked => rw [hne, hp] at hok; simp at hok

/-- C4 witness: the single select item `first(a)` classifies as the
unwired aggregate kind `First`, and `parse_query` on that query returns no
plan. -/
theorem unwired_aggregate_never_planned_witness :
    (∃ se ∈ sampleFirstQuery.select_exprs, ∃ na,
      parse_aggregate se = PResult.ok na ∧
      aggregate_wired na.aggregate = false) ∧
    ∀ plan, parse_query sampleFirstQuery common.DataSource.Stdin ≠ PResult.ok plan := by
  have hyp : ∃ se ∈ sampleFirstQuery.select_exprs, ∃ na,
      parse_aggregate se = PResult.ok na ∧
      aggregate_wired na.aggregate = false := by
    refine ⟨sampleFirstItem, by simp [sampleFirstQuery, sampleFirstItem],
      ⟨types.Aggregate.First (types.Named.Expression
        (types.Expression.Variable "a") (some "a")), none⟩, ?_, rfl⟩
    simp [sampleFirstItem, parse_aggregate, parse_expression,
      parse_value_expression, from_str]
  exact ⟨hyp, unwired_aggregate_never_planned sampleFirstQuery common.DataSource.Stdin hyp⟩

/-- C1: every plan returned by `parse_query` is nested in the fixed order
`DataSource` at the leaf, then `Map`, `Filter`, `GroupBy`, `Limit` toward
the root, with the `Map` layer present iff the select list is non-empty,
`Filter` iff a where-clause was supplied, `GroupBy` iff a group-by clause
was supplied, and `Limit` iff a limit clause was supplied. -/
theorem parse_query_layer_order (query : ast.SelectStatement)
    (ds : common.DataSource) (plan : types.Node)
    (h : parse_query query ds = PResult.ok plan) :
    ∃ named_list filter_formula aggs,
      plan = specLayerPlan query ds named_list filter_formula aggs := by
  rw [parse_query] at h
  cases hsel : query.select_exprs.isEmpty with
  | true =>
    simp only [hsel, if_true] at h
    cases hw : query.where_expr_opt with
    | none =>
      simp only [hw] at h
      simp only [PResult.ok.injEq] at h
      refine ⟨[], types.Formula.Constant true, [], ?_⟩
      rw [← h]
      cases hg : query.group_by_exprs_opt <;> cases hlim : query.limit_expr_opt <;>
        simp [specLayerPlan, hsel, hw, hg, hlim]
    | some we =>
      cases hpl : parse_logic we.expr with
      | ok f =>
        simp only [hw, hpl] at h
        simp only [PResult.ok.injEq] at h
        refine ⟨[], f, [], ?_⟩
        rw [← h]
        cases hg : query.group_by_exprs_opt <;> cases hlim : query.limit_expr_opt <;>
          simp [specLayerPlan, hsel, hw, hg, hlim]
      | err e => simp [hw, hpl] at h
      | panicked => simp [hw, hpl] at h
  | false =>
    simp only [hsel, Bool.false_eq_true, if_false] at h
    cases hps : process_select_exprs query.select_exprs with
    | ok res =>
      obtain ⟨nl, aggs⟩ := res
      simp only [hps] at h
      cases hw : query.where_expr_opt with
      | none =>
        simp only [hw] at h
        simp only [PResult.ok.injEq] at h
        refine ⟨nl, types.Formula.Constant true, aggs, ?_⟩
        rw [← h]
        cases hg : query.group_by_exprs_opt <;> cases hlim : query.limit_expr_opt <;>
          simp [specLayerPlan, hsel, hw, hg, hlim]
      | some we =>
        cases hpl : parse_logic we.expr with
        | ok f =>
          simp only [hw, hpl] at h
          simp only [PResult.ok.injEq] at h
          refine ⟨nl, f, aggs, ?_⟩
          rw [← h]
          cases hg : query.group_by_exprs_opt <;> cases hlim : query.limit_expr_opt <;>
            simp [specLayerPlan, hsel, hw, hg, hlim]
        | err e => simp [hw, hpl] at h
        | panicked => simp [hw, hpl] at h
    | err e => simp [hps] at h
    | panicked => simp [hps] at h

/-- C1 witness: the plan for `select a, b where a = 1` is
`Filter(Map(DataSource))`, matching the layering the spec states. -/
theorem parse_query_layer_order_witness :
    parse_query sampleQuery common.DataSource.Stdin = PResult.ok samplePlan ∧
    ∃ named_list filter_formula aggs,
      samplePlan = specLayerPlan sampleQuery common.DataSource.Stdin
        named_list filter_formula aggs := by
  have hq : parse_query sampleQuery common.DataSource.Stdin = PResult.ok samplePlan := by
    simp [sampleQuery, samplePlan, parse_query, process_select_exprs, parse_aggregate,
      parse_expression, parse_value_expression, parse_logic, parse_condition,
      parse_relation, parse_value, from_str]
  exact ⟨hq, parse_query_layer_order sampleQuery common.DataSource.Stdin samplePlan hq⟩

theorem benign_ok {α : Type} (a : α) : Benign (PResult.ok a) := by
  simp [Benign]

theorem benign_panicked {α : Type} : Benign (PResult.panicked : PResult α) := by
  simp [Benign]

theorem benign_err_tm {α : Type} :
    Benign (PResult.err ParseError.TypeMismatch : PResult α) := by
  simp [Benign]

theorem benign_err_naf {α : Type} :
    Benign (PResult.err ParseError.NotAggregateFunction : PResult α) := by
  simp [Benign]

/-- Propagating an error (`| .err e => .err e` in the source) changes the
value type of the result; benignity carries over since it only concerns the
error payload. -/
theorem benign_err_transfer {α β : Type} (e : ParseError)
    (h : Benign (PResult.err e : PResult α)) :
    Benign (PResult.err e : PResult β) := by
  simp [Benign] at h ⊢
  exact h

theorem benign_parse_boolean_value (ve : ast.ValueExpression) :
    Benign (parse_boolean_value ve) := by
  cases ve with
  | Value v => cases v with
    | Boolean b => exact benign_ok _
    | Float f => exact benign_err_tm
    | Integral i => exact benign_err_tm
    | StringLiteral s => exact benign_err_tm
  | Column name => exact benign_err_tm
  | Operator op l r => exact benign_err_tm
  | FuncCall name args wg => exact benign_err_tm

theorem benign_parse_value (v : ast.Value) : Benign (parse_value v) := by
  cases v <;> exact benign_ok _

theorem benign_parse_relation (op : ast.RelationOperator) :
    Benign (parse_relation op) := by
  cases op <;> exact benign_ok _

theorem benign_from_str (s : String) (n : types.Named) :
    Benign (from_str s n) := by
  unfold from_str
  split
  · exact benign_ok _
  · exact benign_ok _
  · exact benign_ok _
  · exact benign_ok _
  · exact benign_ok _
  · exact benign_ok _
  · exact benign_ok _
  · exact benign_err_naf

mutual

theorem benign_parse_prefix_operator (op : types.LogicPrefixOp)
    (child : ast.Expression) : Benign (parse_prefix_operator op child) := by
  rw [parse_prefix_operator]
  cases hc : parse_logic child with
  | ok f => exact benign_ok _
  | err e =>
    have hben := benign_parse_logic child
    rw [hc] at hben
    exact benign_err_transfer _ hben
  | panicked => exact benign_panicked
termination_by 8 * sizeOf child + 1

theorem benign_parse_infix_operator (op : types.LogicInfixOp)
    (left right : ast.Expression) : Benign (parse_infix_operator op left right) := by
  rw [parse_infix_operator]
  cases hl : parse_logic left with
  | ok lp =>
    cases hr : parse_logic right with
    | ok rp => exact benign_ok _
    | err e =>
      have hben := benign_parse_logic right
      rw [hr] at hben
      exact benign_err_transfer _ hben
    | panicked => exact benign_panicked
  | err e =>
    have hben := benign_parse_logic left
    rw [hl] at hben
    exact benign_err_transfer _ hben
  | panicked => exact benign_panicked
termination_by 8 * (sizeOf left + sizeOf right) + 1

theorem benign_parse_logic (e : ast.Expression) : Benign (parse_logic e) := by
  cases e with
  | Condition c => rw [parse_logic]; exact benign_parse_condition c
  | And l r => rw [parse_logic]; exact benign_parse_infix_operator .And l r
  | Or l r => rw [parse_logic]; exact benign_parse_infix_operator .Or l r
  | Not c => rw [parse_logic]; exact benign_parse_prefix_operator .Not c
  | Value ve => rw [parse_logic]; exact benign_parse_boolean_value ve
termination_by 8 * sizeOf e

theorem benign_parse_logic_expression (expr : ast.Expression) :
    Benign (parse_logic_expression expr) := by
  rw [parse_logic_expression]
  cases hc : parse_logic expr with
  | ok f => exact benign_ok _
  | err e =>
    have hben := benign_parse_logic expr
    rw [hc] at hben
    exact benign_err_transfer _ hben
  | panicked => exact benign_panicked
termination_by 8 * sizeOf expr + 1

theorem benign_parse_condition (c : ast.Condition) :
    Benign (parse_condition c) := by
  cases c with
  | ComparisonExpression op le re =>
    rw [parse_condition]
    cases hl : parse_value_expression le with
    | ok l =>
      cases hr : parse_value_expression re with
      | ok r =>
        cases hrel : parse_relation op with
        | ok rel => exact benign_ok _
        | err e =>
          have hben := benign_parse_relation op
          rw [hrel] at hben
          exact benign_err_transfer _ hben
        | panicked => exact benign_panicked
      | err e =>
        have hben := benign_parse_value_expression re
        rw [hr] at hben
        exact benign_err_transfer _ hben
      | panicked => exact benign_panicked
    | err e =>
      have hben := benign_parse_value_expression le
      rw [hl] at hben
      exact benign_err_transfer _ hben
    | panicked => exact benign_panicked
termination_by 8 * sizeOf c

theorem benign_parse_arithemetic (ve : ast.ValueExpression) :
    Benign (parse_arithemetic ve) := by
  cases ve with
  | Operator op le re =>
    rw [parse_arithemetic]
    cases hl : parse_value_expression le with
    | ok l =>
      cases hr : parse_value_expression re with
      | ok r => exact benign_ok _
      | err e =>
        have hben := benign_parse_value_expression re
        rw [hr] at hben
        exact benign_err_transfer _ hben
      | panicked => exact benign_panicked
    | err e =>
      have hben := benign_parse_value_expression le
      rw [hl] at hben
      exact benign_err_transfer _ hben
    | panicked => exact benign_panicked
  | Value v =>
    rw [parse_arithemetic]
    · exact benign_panicked
    · intro op le re hcon
      exact ast.ValueExpression.noConfusion hcon
  | Column name =>
    rw [parse_arithemetic]
    · exact benign_panicked
    · intro op le re hcon
      exact ast.ValueExpression.noConfusion hcon
  | FuncCall name args wg =>
    rw [parse_arithemetic]
    · exact benign_panicked
    · intro op le re hcon
      exact ast.ValueExpression.noConfusion hcon
termination_by 8 * sizeOf ve

theorem benign_parse_value_expression (ve : ast.ValueExpression) :
    Benign (parse_value_expression ve) := by
  cases ve with
  | Value v => rw [parse_value_expression]; exact benign_parse_value v
  | Column name => rw [parse_value_expression]; exact benign_ok _
  | Operator op l r =>
    rw [parse_value_expression]
    exact benign_parse_arithemetic (.Operator op l r)
  | FuncCall name args wg =>
    rw [parse_value_expression]
    cases hargs : parse_expression_list args with
    | ok parsed => exact benign_ok _
    | err e =>
      have hben := benign_parse_expression_list args
      rw [hargs] at hben
      exact benign_err_transfer _ hben
    | panicked => exact benign_panicked
termination_by 8 * sizeOf ve + 1

theorem benign_parse_expression_list (l : List ast.SelectExpression) :
    Benign (parse_expression_list l) := by
  cases l with
  | nil => rw [parse_expression_list]; exact benign_ok _
  | cons se rest =>
    rw [parse_expression_list]
    cases hse : parse_expression se with
    | ok n =>
      cases hrest : parse_expression_list rest with
      | ok ns => exact benign_ok _
      | err e =>
        have hben := benign_parse_expression_list rest
        rw [hrest] at hben
        exact benign_err_transfer _ hben
      | panicked => exact benign_panicked
    | err e =>
      have hben := benign_parse_expression se
      rw [hse] at hben
      exact benign_err_transfer _ hben
    | panicked => exact benign_panicked
termination_by 8 * sizeOf l

theorem benign_parse_expression (se : ast.SelectExpression) :
    Benign (parse_expression se) := by
  cases se with
  | Star => rw [parse_expression]; exact benign_ok _
  | Expression expr name_opt =>
    cases expr with
    | Condition c =>
      rw [parse_expression]
      cases hc : parse_condition c with
      | ok formula => exact benign_ok _
      | err e =>
        have hben := benign_parse_condition c
        rw [hc] at hben
        exact benign_err_transfer _ hben
      | panicked => exact benign_panicked
    | And l r =>
      rw [parse_expression]
      cases hl : parse_logic_expression (.And l r) with
      | ok e => exact benign_ok _
      | err e =>
        have hben := benign_parse_logic_expression (.And l r)
        rw [hl] at hben
        exact benign_err_transfer _ hben
      | panicked => exact benign_panicked
    | Or l r =>
      rw [parse_expression]
      cases hl : parse_logic_expression (.Or l r) with
      | ok e => exact benign_ok _
      | err e =>
        have hben := benign_parse_logic_expression (.Or l r)
        rw [hl] at hben
        exact benign_err_transfer _ hben
      | panicked => exact benign_panicked
    | Not c =>
      rw [parse_expression]
      cases hl : parse_logic_expression (.Not c) with
      | ok e => exact benign_ok _
      | err e =>
        have hben := benign_parse_logic_expression (.Not c)
        rw [hl] at hben
        exact benign_err_transfer _ hben
      | panicked => exact benign_panicked
    | Value value_expr =>
      rw [parse_expression]
      cases hv : parse_value_expression value_expr with
      | ok e => cases e <;> exact benign_ok _
      | err e =>
        have hben := benign_parse_value_expression value_expr
        rw [hv] at hben
        exact benign_err_transfer _ hben
      | panicked => exact benign_panicked
termination_by 8 * sizeOf se

end

theorem benign_parse_aggregate (se : ast.SelectExpression) :
    Benign (parse_aggregate se) := by
  cases se with
  | Star => exact benign_err_tm
  | Expression expr name_opt =>
    cases expr with
    | Value ve =>
      cases ve with
      | FuncCall func_name args wg =>
        cases args with
        | nil => exact benign_panicked
        | cons arg0 rest =>
          rw [parse_aggregate]
          split
          · rename_i named heq
            cases hf : from_str func_name named with
            | ok agg => exact benign_ok _
            | err e =>
              have hben := benign_from_str func_name named
              rw [hf] at hben
              exact benign_err_transfer _ hben
            | panicked => exact benign_panicked
          · rename_i e heq
            have hben := benign_parse_expression arg0
            rw [heq] at hben
            exact benign_err_transfer _ hben
          · exact benign_panicked
      | Value v => exact benign_err_tm
      | Column name => exact benign_err_tm
      | Operator op l r => exact benign_err_tm
    | Condition c => exact benign_err_tm
    | And l r => exact benign_err_tm
    | Or l r => exact benign_err_tm
    | Not c => exact benign_err_tm

theorem benign_process_select_exprs (l : List ast.SelectExpression) :
    Benign (process_select_exprs l) := by
  induction l with
  | nil => exact benign_ok _
  | cons se rest ih =>
    rw [process_select_exprs]
    split
    · exact benign_panicked
    · split
      · split
        · exact benign_ok _
        · rename_i e heq
          rw [heq] at ih
          exact ih
        · exact benign_panicked
      · split
        · exact benign_ok _
        · rename_i e heq
          rw [heq] at ih
          exact ih
        · exact benign_panicked
      · exact benign_panicked
    · split
      · split
        · exact benign_ok _
        · rename_i e heq
          rw [heq] at ih
          exact ih
        · exact benign_panicked
      · rename_i e heq
        have hben := benign_parse_expression se
        rw [heq] at hben
        exact benign_err_transfer _ hben
      · exact benign_panicked

/-- C9: the assembler never surfaces the two declared-but-dead error
kinds: the relation mapping is total over all six surface relational
operators, and `parse_query` never returns `UnsupportedLogicOperator` nor
`SelectExprMustBeNamed` on any input. -/
theorem parse_query_no_dead_errors (query : ast.SelectStatement)
    (ds : common.DataSource) :
    (∀ op, ∃ rel, parse_relation op = PResult.ok rel) ∧
    parse_query query ds ≠ PResult.err ParseError.UnsupportedLogicOperator ∧
    parse_query query ds ≠ PResult.err ParseError.SelectExprMustBeNamed := by
  have hben : Benign (parse_query query ds) := by
    rw [parse_query]
    split
    · rename_i e heq
      split at heq
      · simp at heq
      · split at heq
        · simp at heq
        · rename_i e2 heq2
          injection heq with he
          subst he
          have hb := benign_process_select_exprs query.select_exprs
          rw [heq2] at hb
          exact benign_err_transfer _ hb
        · simp at heq
    · exact benign_panicked
    · split
      · rename_i e heq
        split at heq
        · simp at heq
        · rename_i we hwe
          split at heq
          · simp at heq
          · rename_i e2 heq3
            injection heq with he
            subst he
            have hb := benign_parse_logic we.expr
            rw [heq3] at hb
            exact benign_err_transfer _ hb
          · simp at heq
      · exact benign_panicked
      · exact benign_ok _
  refine ⟨?_, hben.1, hben.2⟩
  intro op
  cases op with
  | Equal => exact ⟨.Equal, rfl⟩
  | NotEqual => exact ⟨.NotEqual, rfl⟩
  | GreaterEqual => exact ⟨.GreaterEqual, rfl⟩
  | LessEqual => exact ⟨.LessEqual, rfl⟩
  | LessThan => exact ⟨.LessThan, rfl⟩
  | MoreThan => exact ⟨.MoreThan, rfl⟩

end Logq
